import Mathlib

/-!
Verification of the tag-generation and process-spawning core of the
`lunatic-rs` actor library (`src/tag.rs` and `src/process/mod.rs`).

The tag generator mutates a process-wide `static mut COUNTER: i64`; here the
counter is threaded explicitly through every operation.  The 64-bit increment
`COUNTER += 1` is a program error on overflow (Rust arithmetic-overflow
panic), modelled by returning `none`.
-/

namespace LunaticRs

/-- The minimum value of a 64-bit signed integer (Rust `i64`). -/
def i64Min : Int := -(2 ^ 63)

/-- The maximum value of a 64-bit signed integer (Rust `i64`). -/
def i64Max : Int := 2 ^ 63 - 1

/-- The struct `pub struct Tag(i64)` of `src/tag.rs`: a message tag wrapping a
raw signed 64-bit identifier.  The field `id` models the accessor
`pub fn id(&self) -> i64 { self.0 }`. -/
structure Tag where
  id : Int
deriving DecidableEq

/-- The constructor `pub(crate) fn from(id: i64) -> Tag { Tag(id) }` of
`src/tag.rs` (named `fromId` here because `from` is a reserved word in Lean). -/
def Tag.fromId (id : Int) : Tag :=
  ⟨id⟩

/-- The initialiser of `static mut COUNTER: i64 = 0` in `src/tag.rs`: the value
the process-wide tag counter holds at process start. -/
def COUNTER_init : Int := 0

/-- The generator `pub fn new() -> Tag` of `src/tag.rs`:
`COUNTER += 1; Tag(COUNTER)`.  The process-wide counter is passed and returned
explicitly; the 64-bit increment is a program error (overflow) when the
incremented value leaves the `i64` range, modelled as `none`. -/
def Tag.new (counter : Int) : Option (Tag × Int) :=
  if i64Min ≤ counter + 1 ∧ counter + 1 ≤ i64Max then
    some (⟨counter + 1⟩, counter + 1)
  else
    none

/-- The impl `Default for Tag` of `src/tag.rs`:
`fn default() -> Self { Self::new() }`. -/
def Tag.default (counter : Int) : Option (Tag × Int) :=
  Tag.new counter

/-- A sequence of calls to `Tag::new()` within one process, threading the
process-wide counter: returns the list of generated tags and the final counter,
or `none` if some call overflows. -/
def runFrom (counter : Int) : Nat → Option (List Tag × Int)
  | 0 => some ([], counter)
  | n + 1 =>
    (Tag.new counter).bind fun tc =>
      (runFrom tc.2 n).map fun lc => (tc.1 :: lc.1, lc.2)

/-- The argument bundle the public entry points pass to the spawn contract
`IntoProcess<C>::spawn(module, config, capture, handler)` of
`src/process/mod.rs`.  `Module` stands for `WasmModule` and `Config` for
`ProcessConfig`, both external collaborators passed through unchanged. -/
structure SpawnArgs (Module Config C H : Type) where
  module : Option Module
  config : Option Config
  capture : C
  handler : H

/-- The argument bundle the public entry points pass to the spawn contract
`IntoProcessLink<C>::spawn_link(module, config, tag, capture, handler)` of
`src/process/mod.rs`. -/
structure SpawnLinkArgs (Module Config C H : Type) where
  module : Option Module
  config : Option Config
  tag : Tag
  capture : C
  handler : H

/-- The entry point `pub fn spawn<T, C>(capture, handler)` of
`src/process/mod.rs`: it forwards
`<T as IntoProcess<C>>::spawn(None, None, capture, handler)`.  Modelled as the
argument bundle handed to the shape's contract. -/
def spawn {Module Config C H : Type} (capture : C) (handler : H) :
    SpawnArgs Module Config C H :=
  ⟨none, none, capture, handler⟩

/-- The entry point `pub fn spawn_config<T, C>(config, capture, handler)` of
`src/process/mod.rs`: it forwards
`<T as IntoProcess<C>>::spawn(None, Some(config), capture, handler)`. -/
def spawn_config {Module Config C H : Type} (config : Config) (capture : C)
    (handler : H) : SpawnArgs Module Config C H :=
  ⟨none, some config, capture, handler⟩

/-- The entry point `pub fn spawn_link<T, C>(capture, handler)` of
`src/process/mod.rs`: it forwards
`<T as IntoProcessLink<C>>::spawn_link(None, None, Tag::new(), capture, handler)`.
The call to `Tag::new()` threads the process-wide counter; its overflow panic
propagates as `none`.  No tag is taken from the caller. -/
def spawn_link {Module Config C H : Type} (capture : C) (handler : H)
    (counter : Int) : Option (SpawnLinkArgs Module Config C H × Int) :=
  (Tag.new counter).map fun tc => (⟨none, none, tc.1, capture, handler⟩, tc.2)

/-- The entry point `pub fn spawn_link_config<T, C>(config, capture, handler)`
of `src/process/mod.rs`: it forwards
`<T as IntoProcessLink<C>>::spawn_link(None, Some(config), Tag::new(), capture, handler)`. -/
def spawn_link_config {Module Config C H : Type} (config : Config) (capture : C)
    (handler : H) (counter : Int) :
    Option (SpawnLinkArgs Module Config C H × Int) :=
  (Tag.new counter).map fun tc =>
    (⟨none, some config, tc.1, capture, handler⟩, tc.2)

/-- The struct `std::time::Duration` (external to the crate, modelled from its
documented representation): `secs` whole seconds (`u64`) plus `nanos`
sub-second nanoseconds (`u32`, always `< 10^9`). -/
structure Duration where
  secs : Nat
  nanos : Nat
deriving DecidableEq

/-- The method `Duration::as_millis`: the total number of whole milliseconds as
a `u128`, truncating the sub-millisecond remainder.  (The true value never
reaches `2^128`, so no wrap is needed.) -/
def Duration.as_millis (d : Duration) : Nat :=
  d.secs * 1000 + d.nanos / 1000000

/-- The total length of a `Duration` in nanoseconds, used to compare lengths of
time. -/
def Duration.toNanos (d : Duration) : Nat :=
  d.secs * 1000000000 + d.nanos

/-- The function `pub fn sleep(duration: Duration)` of `src/process/mod.rs`:
`host_api::process::sleep_ms(duration.as_millis() as u64)`.  Modelled as the
`u64` millisecond count passed to the host primitive `sleep_ms`; the Rust cast
`as u64` truncates modulo `2^64`.  The host guarantees a suspension of at
least that many milliseconds. -/
def sleep (d : Duration) : Nat :=
  d.as_millis % 2 ^ 64

/-- Modelled from the spec: the exit reasons of the failure-notification data
model, `ExitReason` being `Normal` or `Trapped(cause)` (the implementations of
the spawn contracts and the host linking primitive are not in the excerpt). -/
inductive ExitReason where
  | normal
  | trapped
deriving DecidableEq

/-- Modelled from the spec: the events observable around one `spawn_link` call
— the link establishment, the new process's handler instructions (numbered from
0), and a trap of the new process. -/
inductive LinkEvent where
  | linkEstablished (tag : Tag)
  | handlerInstr (k : Nat)
  | trap
deriving DecidableEq

/-- Modelled from the spec: an execution of the new process's handler — it runs
instructions `0, …, n-1` and then, when `traps` holds, traps. -/
def childExec (n : Nat) (traps : Bool) : List LinkEvent :=
  (List.range n).map LinkEvent.handlerInstr ++ (if traps then [LinkEvent.trap] else [])

/-- Modelled from the spec (§4.2): `spawn_link` establishes the bidirectional
link, tagged with `tag`, before the new process begins executing its handler,
so every admitted trace begins with the link establishment. -/
def spawnLinkTrace (tag : Tag) (n : Nat) (traps : Bool) : List LinkEvent :=
  LinkEvent.linkEstablished tag :: childExec n traps

/-- Modelled from the spec (§4.3): a trap of the new process is reported to the
caller only through the link; walking the trace, the caller receives the
failure notification `(tag, Trapped)` exactly when a link tagged `tag` was
established before the trap occurred. -/
def notifyFrom : Option Tag → List LinkEvent → Option (Tag × ExitReason)
  | _, [] => none
  | _, LinkEvent.linkEstablished tag :: rest => notifyFrom (some tag) rest
  | link, LinkEvent.handlerInstr _ :: rest => notifyFrom link rest
  | some tag, LinkEvent.trap :: _ => some (tag, ExitReason.trapped)
  | none, LinkEvent.trap :: _ => none

/-- Modelled from the spec: the failure notification the caller receives from a
trace, starting with no link established. -/
def callerNotified (t : List LinkEvent) : Option (Tag × ExitReason) :=
  notifyFrom none t

theorem Tag.new_some {c : Int} {t : Tag} {c' : Int}
    (h : Tag.new c = some (t, c')) : t = Tag.mk (c + 1) ∧ c' = c + 1 := by
  unfold Tag.new at h
  split at h
  · simp only [Option.some.injEq, Prod.mk.injEq] at h
    exact ⟨h.1.symm, h.2.symm⟩
  · cases h

theorem runFrom_bounds {n : Nat} : ∀ {c : Int} {l : List Tag} {c' : Int},
    runFrom c n = some (l, c') → c ≤ c' ∧ ∀ t ∈ l, c < t.id ∧ t.id ≤ c' := by
  induction n with
  | zero =>
    intro c l c' h
    simp only [runFrom, Option.some.injEq, Prod.mk.injEq] at h
    refine ⟨le_of_eq h.2, ?_⟩
    intro t ht
    rw [← h.1] at ht
    cases ht
  | succ n ih =>
    intro c l c' h
    simp only [runFrom] at h
    cases hn : Tag.new c with
    | none => rw [hn] at h; cases h
    | some tc =>
      obtain ⟨t0, c0⟩ := tc
      rw [hn, Option.some_bind] at h
      cases hr : runFrom c0 n with
      | none => rw [hr] at h; cases h
      | some lc =>
        obtain ⟨l1, c1⟩ := lc
        rw [hr] at h
        simp only [Option.map_some', Option.some.injEq, Prod.mk.injEq] at h
        obtain ⟨ht0, hc0⟩ := Tag.new_some hn
        obtain ⟨hmono, hmem⟩ := ih hr
        subst ht0 hc0
        constructor
        · rw [← h.2]; linarith
        · intro t htl
          rw [← h.1] at htl
          rcases List.mem_cons.mp htl with heq | hmem'
          · subst heq
            refine ⟨show c < c + 1 by linarith, ?_⟩
            show c + 1 ≤ c'
            rw [← h.2]
            exact hmono
          · obtain ⟨hlt, hle⟩ := hmem t hmem'
            exact ⟨by linarith, by rw [← h.2]; exact hle⟩

theorem runFrom_pairwise_lt {n : Nat} : ∀ {c : Int} {l : List Tag} {c' : Int},
    runFrom c n = some (l, c') → List.Pairwise (fun a b => a.id < b.id) l := by
  induction n with
  | zero =>
    intro c l c' h
    simp only [runFrom, Option.some.injEq, Prod.mk.injEq] at h
    rw [← h.1]
    exact List.Pairwise.nil
  | succ n ih =>
    intro c l c' h
    simp only [runFrom] at h
    cases hn : Tag.new c with
    | none => rw [hn] at h; cases h
    | some tc =>
      obtain ⟨t0, c0⟩ := tc
      rw [hn, Option.some_bind] at h
      cases hr : runFrom c0 n with
      | none => rw [hr] at h; cases h
      | some lc =>
        obtain ⟨l1, c1⟩ := lc
        rw [hr] at h
        simp only [Option.map_some', Option.some.injEq, Prod.mk.injEq] at h
        obtain ⟨ht0, hc0⟩ := Tag.new_some hn
        subst ht0 hc0
        rw [← h.1]
        refine List.Pairwise.cons ?_ (ih hr)
        intro b hb
        obtain ⟨hlt, _⟩ := (runFrom_bounds hr).2 b hb
        show c + 1 < b.id
        linarith

/-- Claim C1: for any sequence of `N` calls to `Tag::new()` within one process
(the counter starting at `COUNTER_init`) that all return, the `N` returned tags
are pairwise distinct and their ids are strictly increasing. -/
theorem tag_new_sequence_distinct_increasing (N : Nat) (l : List Tag) (c : Int)
    (h : runFrom COUNTER_init N = some (l, c)) :
    List.Pairwise (fun a b => a ≠ b) l ∧
      List.Pairwise (fun a b => a.id < b.id) l := by
  have hp := runFrom_pairwise_lt h
  refine ⟨hp.imp ?_, hp⟩
  intro a b hab heq
  rw [heq] at hab
  exact lt_irrefl _ hab

/-- Witness for C1: the first four calls yield tags 1, 2, 3, 4, which are
pairwise distinct with strictly increasing ids. -/
theorem tag_new_sequence_distinct_increasing_witness :
    List.Pairwise (fun a b => a ≠ b) [Tag.mk 1, Tag.mk 2, Tag.mk 3, Tag.mk 4] ∧
      List.Pairwise (fun a b => a.id < b.id)
        [Tag.mk 1, Tag.mk 2, Tag.mk 3, Tag.mk 4] :=
  tag_new_sequence_distinct_increasing 4 [Tag.mk 1, Tag.mk 2, Tag.mk 3, Tag.mk 4] 4
    (by decide)

/-- Claim C2: the tag generator is a process-wide counter that starts at 0 and
is incremented by exactly 1 on every call, the incremented value becoming the
new tag's id; the first four calls after process start return tags with ids
1, 2, 3, 4 in order. -/
theorem tag_counter_starts_zero_increments_one :
    COUNTER_init = 0 ∧
      (∀ c : Int, i64Min ≤ c + 1 → c + 1 ≤ i64Max →
        Tag.new c = some (⟨c + 1⟩, c + 1)) ∧
      runFrom COUNTER_init 4 =
        some ([Tag.mk 1, Tag.mk 2, Tag.mk 3, Tag.mk 4], 4) := by
  refine ⟨rfl, ?_, by decide⟩
  intro c h1 h2
  unfold Tag.new
  rw [if_pos ⟨h1, h2⟩]

/-- Witness for C2: the increment equation at the concrete counter value 0. -/
theorem tag_counter_starts_zero_increments_one_witness :
    Tag.new 0 = some (⟨1⟩, 1) :=
  tag_counter_starts_zero_increments_one.2.1 0 (by decide) (by decide)

/-- Claim C3 (modelled from the spec, the spawn-contract implementations and
host linking primitive being outside the excerpt): in every trace admitted by
`spawn_link` the link establishment precedes the handler, so even when the new
process traps after `n` handler instructions — including `n = 0`, a trap on the
very first instruction — the caller receives the failure notification
`(tag, Trapped)`. -/
theorem link_before_run_no_missed_failure (tag : Tag) (n : Nat) :
    callerNotified (spawnLinkTrace tag n true) =
      some (tag, ExitReason.trapped) := by
  unfold callerNotified spawnLinkTrace childExec
  simp only [if_pos, notifyFrom]
  have : ∀ xs : List Nat,
      notifyFrom (some tag) (xs.map LinkEvent.handlerInstr ++ [LinkEvent.trap]) =
        some (tag, ExitReason.trapped) := by
    intro xs
    induction xs with
    | nil => rfl
    | cons x xs ih => simpa [notifyFrom] using ih
  simpa using this (List.range n)

/-- Claim C4: `Tag::default()` is observationally equivalent to `Tag::new()`:
from any counter state it returns the same result (same tag, same updated
counter, hence exactly one counter increment). -/
theorem tag_default_eq_new : ∀ c : Int, Tag.default c = Tag.new c :=
  fun _ => rfl

/-- Claim C5: `spawn_link` and `spawn_link_config` generate one fresh tag by a
single call to `Tag::new()` and pass exactly that tag as the link tag in the
argument bundle, with the counter advanced exactly once; the entry points take
no tag from the caller. -/
theorem spawn_link_generates_fresh_tag {Module Config C H : Type}
    (config : Config) (capture : C) (handler : H) (c : Int) (t : Tag) (c' : Int)
    (h : Tag.new c = some (t, c')) :
    @spawn_link Module Config C H capture handler c =
        some (⟨none, none, t, capture, handler⟩, c') ∧
      @spawn_link_config Module Config C H config capture handler c =
        some (⟨none, some config, t, capture, handler⟩, c') := by
  unfold spawn_link spawn_link_config
  rw [h]
  exact ⟨rfl, rfl⟩

/-- Witness for C5: at counter 0 both linked entry points pass the fresh tag 1
and return counter 1. -/
theorem spawn_link_generates_fresh_tag_witness :
    @spawn_link Unit Unit Unit Unit () () 0 =
        some (⟨none, none, Tag.mk 1, (), ()⟩, 1) ∧
      @spawn_link_config Unit Unit Unit Unit () () () 0 =
        some (⟨none, some (), Tag.mk 1, (), ()⟩, 1) :=
  spawn_link_generates_fresh_tag () () () 0 (Tag.mk 1) 1 (by decide)

/-- Claim C6: the four entry points forward to the shape's spawn contract with
these defaults — `spawn` and `spawn_link` pass no module and no config;
`spawn_config` and `spawn_link_config` pass the caller's config but still no
module. -/
theorem entry_point_defaults {Module Config C H : Type} (config : Config)
    (capture : C) (handler : H) (c : Int) (t : Tag) (c' : Int)
    (h : Tag.new c = some (t, c')) :
    (@spawn Module Config C H capture handler).module = none ∧
      (@spawn Module Config C H capture handler).config = none ∧
      (@spawn_config Module Config C H config capture handler).module = none ∧
      (@spawn_config Module Config C H config capture handler).config =
        some config ∧
      (∃ args : SpawnLinkArgs Module Config C H, ∃ c'' : Int,
        @spawn_link Module Config C H capture handler c = some (args, c'') ∧
          args.module = none ∧ args.config = none) ∧
      (∃ args : SpawnLinkArgs Module Config C H, ∃ c'' : Int,
        @spawn_link_config Module Config C H config capture handler c =
            some (args, c'') ∧
          args.module = none ∧ args.config = some config) := by
  refine ⟨rfl, rfl, rfl, rfl, ?_, ?_⟩
  · refine ⟨⟨none, none, t, capture, handler⟩, c', ?_, rfl, rfl⟩
    unfold spawn_link
    rw [h]
    rfl
  · refine ⟨⟨none, some config, t, capture, handler⟩, c', ?_, rfl, rfl⟩
    unfold spawn_link_config
    rw [h]
    rfl

/-- Witness for C6: the defaults at concrete arguments and counter 0. -/
theorem entry_point_defaults_witness :
    (@spawn Unit Unit Unit Unit () ()).module = none ∧
      (@spawn Unit Unit Unit Unit () ()).config = none ∧
      (@spawn_config Unit Unit Unit Unit () () ()).module = none ∧
      (@spawn_config Unit Unit Unit Unit () () ()).config = some () ∧
      (∃ args : SpawnLinkArgs Unit Unit Unit Unit, ∃ c'' : Int,
        @spawn_link Unit Unit Unit Unit () () 0 = some (args, c'') ∧
          args.module = none ∧ args.config = none) ∧
      (∃ args : SpawnLinkArgs Unit Unit Unit Unit, ∃ c'' : Int,
        @spawn_link_config Unit Unit Unit Unit () () () 0 = some (args, c'') ∧
          args.module = none ∧ args.config = some ()) :=
  entry_point_defaults () () () 0 (Tag.mk 1) 1 (by decide)

/-- Counterexample to C7: for the half-millisecond duration (0 s, 500000 ns),
`sleep` passes 0 to `sleep_ms`, and a suspension of at least 0 ms is not at
least as long as the duration. -/
theorem sleep_sub_millisecond_counterexample :
    sleep ⟨0, 500000⟩ = 0 ∧
      ¬ Duration.toNanos ⟨0, 500000⟩ ≤ sleep ⟨0, 500000⟩ * 1000000 := by
  constructor
  · rfl
  · decide

/-- Claim C7 (amended): for every valid Duration `d` whose total
whole-millisecond count fits in a `u64`, `sleep d` passes exactly that count to
`sleep_ms`, so the guaranteed suspension is `d` rounded down to a whole number
of milliseconds: at least `d` minus its sub-millisecond remainder (within 1 ms
below `d`), and at least `d` itself exactly when `d` is a whole number of
milliseconds. -/
theorem sleep_at_least_floor_millis (d : Duration) (hn : d.nanos < 1000000000)
    (hm : d.as_millis < 2 ^ 64) :
    sleep d = d.as_millis ∧
      sleep d * 1000000 ≤ Duration.toNanos d ∧
      Duration.toNanos d < (sleep d + 1) * 1000000 := by
  unfold Duration.as_millis at hm
  unfold sleep Duration.as_millis Duration.toNanos
  omega

/-- Witness for C7 (amended): the duration (1 s, 234567 ns) sleeps exactly 1000
whole milliseconds, within one millisecond of the true length. -/
theorem sleep_at_least_floor_millis_witness :
    sleep ⟨1, 234567⟩ = Duration.as_millis ⟨1, 234567⟩ ∧
      sleep ⟨1, 234567⟩ * 1000000 ≤ Duration.toNanos ⟨1, 234567⟩ ∧
      Duration.toNanos ⟨1, 234567⟩ < (sleep ⟨1, 234567⟩ + 1) * 1000000 :=
  sleep_at_least_floor_millis ⟨1, 234567⟩ (by decide) (by decide)

/-- Claim C8: `Tag::new()` cannot fail: whenever the incremented counter stays
within the signed 64-bit range, the call returns a tag (no error branch, no
panic). -/
theorem tag_new_cannot_fail (c : Int) (h1 : i64Min ≤ c) (h2 : c + 1 ≤ i64Max) :
    ∃ t : Tag, ∃ c' : Int, Tag.new c = some (t, c') := by
  refine ⟨⟨c + 1⟩, c + 1, ?_⟩
  unfold Tag.new
  rw [if_pos ⟨by unfold i64Min at h1 ⊢; linarith, h2⟩]

/-- Witness for C8: at counter 0 the call succeeds. -/
theorem tag_new_cannot_fail_witness :
    ∃ t : Tag, ∃ c' : Int, Tag.new 0 = some (t, c') :=
  tag_new_cannot_fail 0 (by decide) (by decide)

/-- Claim C9: for every `i64` value `n`, `Tag::from(n).id() == n`, and two tags
are equal exactly when their ids are equal. -/
theorem tag_from_id_roundtrip :
    (∀ n : Int, i64Min ≤ n → n ≤ i64Max → (Tag.fromId n).id = n) ∧
      ∀ t u : Tag, t = u ↔ t.id = u.id := by
  refine ⟨fun n _ _ => rfl, fun t u => ?_⟩
  constructor
  · intro h; rw [h]
  · intro h; cases t; cases u; simpa using h

/-- Witness for C9: the round-trip at the concrete value 42, and equality via
ids for the concrete tag 1. -/
theorem tag_from_id_roundtrip_witness :
    (Tag.fromId 42).id = 42 ∧
      (Tag.mk 1 = Tag.mk 1 ↔ (Tag.mk 1).id = (Tag.mk 1).id) :=
  ⟨tag_from_id_roundtrip.1 42 (by decide) (by decide),
    tag_from_id_roundtrip.2 (Tag.mk 1) (Tag.mk 1)⟩

/-- Claim C10: the counter starts at 0 and is pre-incremented, so every tag
produced by `Tag::new()` or `Tag::default()` from a reachable (non-negative)
counter has id at least 1, and the counter stays non-negative; id 0 is never
generated. -/
theorem tag_generated_id_at_least_one :
    0 ≤ COUNTER_init ∧
      (∀ c : Int, ∀ t : Tag, ∀ c' : Int, 0 ≤ c → Tag.new c = some (t, c') →
        1 ≤ t.id ∧ 0 ≤ c') ∧
      (∀ c : Int, ∀ t : Tag, ∀ c' : Int, 0 ≤ c → Tag.default c = some (t, c') →
        1 ≤ t.id ∧ 0 ≤ c') := by
  have key : ∀ c : Int, ∀ t : Tag, ∀ c' : Int, 0 ≤ c →
      Tag.new c = some (t, c') → 1 ≤ t.id ∧ 0 ≤ c' := by
    intro c t c' hc h
    obtain ⟨ht, hc'⟩ := Tag.new_some h
    rw [ht, hc']
    exact ⟨by simpa using hc, by linarith⟩
  exact ⟨le_refl 0, key, fun c t c' hc h => key c t c' hc h⟩

/-- Witness for C10: the tag generated from counter 0 has id 1 ≥ 1. -/
theorem tag_generated_id_at_least_one_witness :
    1 ≤ (Tag.mk 1).id ∧ 0 ≤ (1 : Int) :=
  tag_generated_id_at_least_one.2.1 0 (Tag.mk 1) 1 (by decide) (by decide)

end LunaticRs
